import Mathlib

/-!
Shallow embedding of the browser URL shortener in `src/App.jsx`.

The program keeps one in-memory mapping `urlMap` from shortcode strings to
records of the form `{ originalUrl, expiry }` (the expiry is a millisecond
timestamp).  Three pieces of logic are embedded here:

* `handleSubmit` (component `Home`): validation of the long URL, the optional
  custom shortcode and the validity field, followed by a call to the parent
  `handleShorten`.
* `handleShorten` / `createShortCode` / `removeExpired` (component `App`):
  shortcode resolution (verbatim custom code or rejection-sampled random
  6-character code), record insertion and record removal.
* the `useEffect` body of component `Redirector`: resolution of a navigated
  shortcode into `NotFound`, `Expired` (with removal) or `Redirecting`
  (arming a 1000 ms redirect timer).

Registries are association lists ordered like a JavaScript object literal.
Property reads that the source uses as truthiness tests (`if (urlMap[...])`,
`while (urlMap[...])`) are embedded with the prototype chain included: on a
plain object they are truthy for inherited `Object.prototype` names such as
`toString` even when no record is stored.  Randomness is passed in as an
explicit stream of alphabet indices, and the unbounded `do/while` rejection
loop of the source is given explicit fuel, returning `none` when the fuel
runs out (the source would keep looping).
-/

set_option autoImplicit false

namespace UrlShortener

/-- A stored record, `{ originalUrl, expiry }` in the source
(`urlMap: { shortcode: { originalUrl, expiry } }`).  `expiry` is a
millisecond timestamp as produced by `Date.now()`. -/
structure Record where
  originalUrl : String
  expiry : Int
  deriving DecidableEq, Repr

/-- The registry `urlMap`, a JavaScript object mapping shortcodes to records,
embedded as an association list with unique keys. -/
abbrev Registry := List (String × Record)

/-- JavaScript property lookup `urlMap[code]`: the value under the key, if
present. -/
def lookup (m : Registry) (k : String) : Option Record :=
  (m.find? (fun p => p.1 == k)).map (fun p => p.2)

/-- The object spread update of `handleShorten`,
`{ ...prev, [shortcode]: { originalUrl, expiry } }`: replace the value in
place when the key is already present, otherwise append the new key. -/
def insert (m : Registry) (k : String) (v : Record) : Registry :=
  if (m.find? (fun p => p.1 == k)).isSome then
    m.map (fun p => if p.1 == k then (k, v) else p)
  else
    m ++ [(k, v)]

/-- `removeExpired` of component `App`: copy the object and `delete copy[code]`.
Deleting an absent key is a no-op. -/
def removeExpired (m : Registry) (k : String) : Registry :=
  m.filter (fun p => p.1 != k)

/-- JavaScript truthiness of a string (`if (customCode)`): every string other
than the empty string is truthy. -/
def strTruthy (s : String) : Bool :=
  s != ""

/-- The property names a plain JavaScript object (such as `urlMap`, created by
`useState` of an empty literal and object spread) inherits from `Object.prototype`.
Accessing any of them on the registry yields a function (or, for `__proto__`,
an object), so each of them is truthy even when no record is stored under that
key. -/
def objectPrototypeKeys : List String :=
  ["constructor", "hasOwnProperty", "isPrototypeOf", "propertyIsEnumerable",
   "toLocaleString", "toString", "valueOf", "__proto__", "__defineGetter__",
   "__defineSetter__", "__lookupGetter__", "__lookupSetter__"]

/-- JavaScript truthiness of the property access `urlMap[k]`: the access walks
the prototype chain, so it is truthy when `k` is an own key of the registry or
one of the inherited `Object.prototype` property names.  This is the test of
`if (urlMap[customCode])` and `while (urlMap[newCode])` in `createShortCode`. -/
def propTruthy (m : Registry) (k : String) : Bool :=
  (lookup m k).isSome || objectPrototypeKeys.contains k

/-- Whether a character is matched by `.` in a JavaScript regular expression
without the `s` flag: any character except a line terminator. -/
def dotMatches (c : Char) : Bool :=
  !(c == '\n' || c == '\r' || c.toNat == 0x2028 || c.toNat == 0x2029)

/-- The test `originalUrl.match(/^https?:\/\/.+/)` of `handleSubmit`, on the
character list of the URL: the literal prefix `http://` or `https://` followed
by at least one character matched by `.`. -/
def hasHttpUrlShape : List Char → Bool
  | 'h' :: 't' :: 't' :: 'p' :: rest =>
    match rest with
    | 's' :: ':' :: '/' :: '/' :: c :: _ => dotMatches c
    | ':' :: '/' :: '/' :: c :: _ => dotMatches c
    | _ => false
  | _ => false

/-- `originalUrl.match(/^https?:\/\/.+/)` as a Boolean. -/
def matchesUrlPattern (s : String) : Bool :=
  hasHttpUrlShape s.toList

/-- A character of the regular-expression class `[a-zA-Z0-9_-]` (the Lean
`Char.isAlpha` and `Char.isDigit` are exactly the ASCII ranges of the class). -/
def isShortcodeChar (c : Char) : Bool :=
  c.isAlpha || c.isDigit || c == '_' || c == '-'

/-- The test `/^[a-zA-Z0-9_-]{4,20}$/.test(customCode)` of `handleSubmit`:
between 4 and 20 characters, all drawn from `[a-zA-Z0-9_-]`. -/
def matchesShortcodePattern (s : String) : Bool :=
  let cs := s.toList
  decide (4 ≤ cs.length) && decide (cs.length ≤ 20) && cs.all isShortcodeChar

/-- The value of a character as a base-`radix` digit (JavaScript `parseInt`
accepts both cases for digits above 9). -/
def hexDigitVal (c : Char) : Option Nat :=
  if c.isDigit then some (c.toNat - 48)
  else if 97 ≤ c.toNat ∧ c.toNat ≤ 102 then some (c.toNat - 87)
  else if 65 ≤ c.toNat ∧ c.toNat ≤ 70 then some (c.toNat - 55)
  else none

/-- The longest prefix of digit values valid in the given radix. -/
def takeRadixDigits (radix : Nat) : List Char → List Nat
  | [] => []
  | c :: cs =>
    match hexDigitVal c with
    | some v => if v < radix then v :: takeRadixDigits radix cs else []
    | none => []

/-- The numeric value of a digit list in the given radix. -/
def digitsToNat (radix : Nat) (ds : List Nat) : Nat :=
  ds.foldl (fun acc d => acc * radix + d) 0

/-- Whitespace skipped by `parseInt` before the number. -/
def jsWhitespace (c : Char) : Bool :=
  c == ' ' || c == '\t' || c == '\n' || c == '\r' || c == '\x0b' || c == '\x0c'

/-- Modelled from the spec: the JavaScript builtin `parseInt(string)` called by
`handleSubmit` (the builtin itself is not part of this repository).  Skip
leading whitespace, read an optional sign, detect a `0x`/`0X` prefix (radix 16,
otherwise 10), then read the longest valid digit prefix; if no digit is read
the result is `NaN`, embedded as `none`.  `parseInt` never yields a
non-integer, and `-0` is embedded as `0` (both are falsy). -/
def parseIntJS (s : String) : Option Int :=
  let cs := s.toList.dropWhile jsWhitespace
  let signed : Int × List Char :=
    match cs with
    | '-' :: rest => (-1, rest)
    | '+' :: rest => (1, rest)
    | _ => (1, cs)
  let prefixed : Nat × List Char :=
    match signed.2 with
    | '0' :: 'x' :: rest => (16, rest)
    | '0' :: 'X' :: rest => (16, rest)
    | _ => (10, signed.2)
  let ds := takeRadixDigits prefixed.1 prefixed.2
  if ds.isEmpty then none
  else some (signed.1 * (digitsToNat prefixed.1 ds : Int))

/-- Line 44 of the source, `const validityMinutes = parseInt(validity) || 30`:
the parsed validity, falling back to 30 exactly when the parse result is falsy,
that is `NaN` (parse failure) or zero. -/
def validityMinutes (validity : String) : Int :=
  match parseIntJS validity with
  | none => 30
  | some n => if n = 0 then 30 else n

/-- The default URL-safe alphabet of the `nanoid` library (an external npm
dependency of the source), 64 characters. -/
def nanoidAlphabet : List Char :=
  "useandom-26T198340PX75pxJACKVERYMINDBUSHWOLF_GQZbfghjklqvwyzrict".toList

/-- The alphabet character at a random index. -/
def nanoidChar (i : Fin 64) : Char :=
  nanoidAlphabet.getD i.val 'u'

/-- Modelled from the spec: `nanoid(size)` from the external `nanoid` library,
a random identifier of `size` characters drawn from the URL-safe alphabet.
The randomness is an explicit stream `rand` of alphabet indices; the call
consumes the indices `start, start+1, ...`. -/
def nanoid (rand : Nat → Fin 64) (start : Nat) (size : Nat) : String :=
  ⟨(List.range size).map (fun i => nanoidChar (rand (start + i)))⟩

/-- The rejection-sampling loop of `createShortCode`:
`do { newCode = nanoid(6) } while (urlMap[newCode])`.  The loop condition is
the truthy property access, prototype chain included.  Each iteration consumes
six indices of the random stream.  The source loops without bound; here the
loop carries fuel and returns `none` when the fuel is exhausted. -/
def genLoop (m : Registry) (rand : Nat → Fin 64) : Nat → Nat → Option String
  | 0, _ => none
  | fuel + 1, start =>
    let newCode := nanoid rand start 6
    if propTruthy m newCode then genLoop m rand fuel (start + 6)
    else some newCode

/-- The creation errors thrown or reported during `handleSubmit`. -/
inductive ShortenError where
  | invalidUrl
  | invalidShortcode
  | duplicateShortcode
  deriving DecidableEq, Repr

/-- `createShortCode` of component `App`: a truthy custom code is checked with
`if (urlMap[customCode]) throw` — a truthy property access, which is satisfied
both by an own key and by an inherited `Object.prototype` name — and otherwise
returned verbatim; an absent (empty) custom code triggers the
rejection-sampling loop.  The inner `Option` is `none` exactly when the loop
fuel runs out. -/
def createShortCode (m : Registry) (rand : Nat → Fin 64) (fuel : Nat)
    (customCode : String) : Except ShortenError (Option String) :=
  if strTruthy customCode then
    if propTruthy m customCode then Except.error ShortenError.duplicateShortcode
    else Except.ok (some customCode)
  else Except.ok (genLoop m rand fuel 0)

/-- `handleShorten` of component `App`: resolve the shortcode, compute
`expiry = Date.now() + validityMinutes * 60 * 1000`, insert the record and
return the short URL `origin ++ "/" ++ shortcode`.  The result pairs the
outcome with the registry after the call; a thrown error leaves the registry
untouched because `setUrlMap` is only reached after `createShortCode`
returns. -/
def handleShorten (rand : Nat → Fin 64) (fuel : Nat) (m : Registry)
    (origin : String) (now : Int) (originalUrl customCode : String)
    (validityMin : Int) : Except ShortenError (Option String) × Registry :=
  match createShortCode m rand fuel customCode with
  | Except.error e => (Except.error e, m)
  | Except.ok none => (Except.ok none, m)
  | Except.ok (some shortcode) =>
    let expiry := now + validityMin * 60 * 1000
    (Except.ok (some (origin ++ "/" ++ shortcode)),
      insert m shortcode ⟨originalUrl, expiry⟩)

/-- `handleSubmit` of component `Home`: reject a URL not matching
`^https?:\/\/.+` with `InvalidUrl`; reject a truthy custom code not matching
`^[a-zA-Z0-9_-]{4,20}$` with `InvalidShortcode`; parse the validity with the
30-minute fallback; then call `handleShorten`.  Both early returns leave the
registry untouched. -/
def handleSubmit (rand : Nat → Fin 64) (fuel : Nat) (m : Registry)
    (origin : String) (now : Int) (originalUrl customCode validity : String) :
    Except ShortenError (Option String) × Registry :=
  if !matchesUrlPattern originalUrl then (Except.error ShortenError.invalidUrl, m)
  else if strTruthy customCode && !matchesShortcodePattern customCode then
    (Except.error ShortenError.invalidShortcode, m)
  else
    handleShorten rand fuel m origin now originalUrl customCode
      (validityMinutes validity)

/-- The display state reached by one run of the `Redirector` effect. -/
inductive ResolveState where
  | notFound
  | expired
  | redirecting
  deriving DecidableEq, Repr

/-- The outcome of one run of the `Redirector` effect: the display state, the
registry after the run, and the list of pending 1000 ms redirect timers, each
identified by the code it was armed for. -/
structure RedirectorResult where
  state : ResolveState
  registry : Registry
  timers : List String
  deriving DecidableEq, Repr

/-- The `useEffect` body of component `Redirector`, which runs on every change
of `code` (or of the registry): no record yields `NotFound`; a record with
`Date.now() > record.expiry` yields `Expired` and calls `removeExpired(code)`;
otherwise the state is `Redirecting` and `setTimeout(..., 1000)` arms a
redirect timer for the current code.  The effect returns no cleanup function
in the source, so re-running it never removes a previously armed timer:
`timers` is only ever appended to.  The lookup here is own-key access: a code
naming an inherited `Object.prototype` property would be truthy in the source
and take the redirect branch with an undefined record (its expiry comparison
is false); the theorems below either hypothesise a record stored in the
registry or use codes outside the prototype names. -/
def redirectorEffect (m : Registry) (timers : List String) (code : String)
    (now : Int) : RedirectorResult :=
  match lookup m code with
  | none => ⟨ResolveState.notFound, m, timers⟩
  | some record =>
    if now > record.expiry then
      ⟨ResolveState.expired, removeExpired m code, timers⟩
    else
      ⟨ResolveState.redirecting, m, timers ++ [code]⟩

/-- The all-zero random stream, used to instantiate theorems at concrete
inputs; `nanoid` renders it as a run of the first alphabet character. -/
def randZero : Nat → Fin 64 := fun _ => 0

/-! ### Structural lemmas about the registry operations -/

theorem nanoid_length (rand : Nat → Fin 64) (start size : Nat) :
    (nanoid rand start size).length = size := by
  simp [nanoid, String.length]

theorem genLoop_spec (m : Registry) (rand : Nat → Fin 64) :
    ∀ fuel start c, genLoop m rand fuel start = some c →
      c.length = 6 ∧ propTruthy m c = false := by
  intro fuel
  induction fuel with
  | zero => intro start c h; simp [genLoop] at h
  | succ n ih =>
    intro start c h
    simp only [genLoop] at h
    by_cases hc : propTruthy m (nanoid rand start 6) = true
    · rw [if_pos hc] at h
      exact ih _ _ h
    · rw [if_neg hc] at h
      rcases Option.some.inj h with rfl
      exact ⟨nanoid_length rand start 6, by simpa using hc⟩

theorem propTruthy_false_lookup (m : Registry) (k : String)
    (h : propTruthy m k = false) : lookup m k = none := by
  unfold propTruthy at h
  rcases Bool.or_eq_false_iff.mp h with ⟨h1, _⟩
  exact Option.not_isSome_iff_eq_none.mp (by simp [h1])

theorem find?_map_replace (k : String) (v : Record) :
    ∀ m : Registry, (m.find? (fun p => p.1 == k)).isSome = true →
      (m.map (fun p => if p.1 == k then (k, v) else p)).find? (fun p => p.1 == k) =
        some (k, v) := by
  intro m
  induction m with
  | nil => intro h; simp at h
  | cons p t ih =>
    intro h
    cases hpk : (p.1 == k) with
    | true => simp [List.find?, hpk]
    | false =>
      have ht : (t.find? (fun p => p.1 == k)).isSome = true := by
        simpa [List.find?, hpk] using h
      simpa [List.find?, hpk] using ih ht

theorem find?_absent_append (k : String) (v : Record) :
    ∀ m : Registry, m.find? (fun p => p.1 == k) = none →
      (m ++ [(k, v)]).find? (fun p => p.1 == k) = some (k, v) := by
  intro m
  induction m with
  | nil => intro _; simp [List.find?]
  | cons p t ih =>
    intro h
    cases hpk : (p.1 == k) with
    | true =>
      simp only [List.find?_cons, hpk] at h
      exact absurd h (by simp)
    | false =>
      simp only [List.find?_cons, hpk] at h
      rw [List.cons_append]
      simp only [List.find?_cons, hpk]
      exact ih h

theorem lookup_insert (m : Registry) (k : String) (v : Record) :
    lookup (insert m k v) k = some v := by
  unfold insert
  by_cases h : (m.find? (fun p => p.1 == k)).isSome = true
  · rw [if_pos h]
    unfold lookup
    rw [find?_map_replace k v m h]
    rfl
  · rw [if_neg h]
    have hn : m.find? (fun p => p.1 == k) = none := Option.not_isSome_iff_eq_none.mp h
    unfold lookup
    rw [find?_absent_append k v m hn]
    rfl

theorem removeExpired_idem (m : Registry) (k : String) :
    removeExpired (removeExpired m k) k = removeExpired m k := by
  simp [removeExpired, List.filter_filter]

theorem removeExpired_absent (m : Registry) (k : String) :
    lookup m k = none → removeExpired m k = m := by
  induction m with
  | nil => intro _; rfl
  | cons p t ih =>
    intro h
    cases hpk : (p.1 == k) with
    | true =>
      unfold lookup at h
      simp only [List.find?_cons, hpk] at h
      exact absurd h (by simp)
    | false =>
      have ht : lookup t k = none := by
        unfold lookup at h ⊢
        simp only [List.find?_cons, hpk] at h
        exact h
      have ih2 := ih ht
      unfold removeExpired at ih2 ⊢
      have hbne : (p.1 != k) = true := by simp [bne, hpk]
      simp only [List.filter_cons, hbne, if_true, ih2]

theorem shortcode_pattern_truthy (c : String) (h : matchesShortcodePattern c = true) :
    strTruthy c = true := by
  by_contra hc
  have he : c = "" := by simpa [strTruthy] using hc
  subst he
  exact absurd h (by decide)

theorem handleShorten_gen_spec (rand : Nat → Fin 64) (fuel : Nat) (m : Registry)
    (origin : String) (now : Int) (url : String) (vmin : Int) (u : String)
    (m2 : Registry)
    (h : handleShorten rand fuel m origin now url "" vmin = (Except.ok (some u), m2)) :
    ∃ c, u = origin ++ "/" ++ c ∧ c.length = 6 ∧ lookup m c = none ∧
      m2 = insert m c ⟨url, now + vmin * 60 * 1000⟩ := by
  unfold handleShorten createShortCode at h
  simp only [strTruthy, bne_self_eq_false, if_false, Bool.false_eq_true] at h
  cases hg : genLoop m rand fuel 0 with
  | none => rw [hg] at h; simp at h
  | some c =>
    rw [hg] at h
    simp only [Prod.mk.injEq, Except.ok.injEq, Option.some.injEq] at h
    obtain ⟨hu, hm⟩ := h
    obtain ⟨hlen, hfresh⟩ := genLoop_spec m rand fuel 0 c hg
    exact ⟨c, hu.symm, hlen, propTruthy_false_lookup m c hfresh, hm.symm⟩

theorem submit_success_inserts (rand : Nat → Fin 64) (fuel : Nat) (m : Registry)
    (origin : String) (now : Int) (url customCode validity : String) (u : String)
    (m2 : Registry)
    (h : handleSubmit rand fuel m origin now url customCode validity =
      (Except.ok (some u), m2)) :
    ∃ code, m2 = insert m code ⟨url, now + validityMinutes validity * 60 * 1000⟩ := by
  unfold handleSubmit at h
  by_cases h1 : matchesUrlPattern url
  · rw [if_neg (by simp [h1])] at h
    by_cases h2 : (strTruthy customCode && !matchesShortcodePattern customCode) = true
    · rw [if_pos h2] at h
      simp at h
    · rw [if_neg h2] at h
      unfold handleShorten at h
      cases hcs : createShortCode m rand fuel customCode with
      | error e => rw [hcs] at h; simp at h
      | ok oc =>
        cases oc with
        | none => rw [hcs] at h; simp at h
        | some code =>
          rw [hcs] at h
          simp only [Prod.mk.injEq] at h
          exact ⟨code, h.2.symm⟩
  · rw [if_pos (by simp [h1])] at h
    simp at h

/-! ### Claim theorems -/

/-- C1: Resolution compares expiry with strict greater-than.  For a record
whose `expiry` equals the current instant, the `Redirector` effect does not
reach the `Expired` state but proceeds as `Redirecting`; the `Expired` state is
reached only when the current instant is strictly greater than the expiry. -/
theorem resolution_expiry_strict (m : Registry) (timers : List String)
    (code : String) (now : Int) (r : Record) (h : lookup m code = some r) :
    (now = r.expiry →
      (redirectorEffect m timers code now).state = ResolveState.redirecting) ∧
    ((redirectorEffect m timers code now).state = ResolveState.expired →
      r.expiry < now) := by
  simp only [redirectorEffect, h]
  by_cases hlt : now > r.expiry
  · rw [if_pos hlt]
    exact ⟨fun he => absurd hlt (by rw [he]; exact lt_irrefl r.expiry), fun _ => hlt⟩
  · rw [if_neg hlt]
    exact ⟨fun _ => rfl, fun hst => by simp at hst⟩

/-- Witness for C1 at the record `("abcd", expiry 100)` resolved at the exact
instant 100. -/
theorem resolution_expiry_strict_witness :
    (((100 : Int) = 100 →
      (redirectorEffect [("abcd", ⟨"https://a.com", 100⟩)] [] "abcd" 100).state =
        ResolveState.redirecting) ∧
    ((redirectorEffect [("abcd", ⟨"https://a.com", 100⟩)] [] "abcd" 100).state =
        ResolveState.expired → (100 : Int) < 100)) :=
  resolution_expiry_strict [("abcd", ⟨"https://a.com", 100⟩)] [] "abcd" 100
    ⟨"https://a.com", 100⟩ (by rfl)

/-- C2, counterexample: the claim states that every negative parsed validity is
defaulted to 30 minutes.  The source computes `parseInt(validity) || 30`, and a
negative integer is truthy, so submitting validity `-5` at instant 0 stores the
record with expiry `-300000` instead of the claimed `0 + 30 * 60000`. -/
theorem negative_validity_counterexample :
    parseIntJS "-5" = some (-5) ∧
    handleSubmit randZero 1 [] "o" 0 "https://a.com" "abcd" "-5" =
      (Except.ok (some "o/abcd"), [("abcd", ⟨"https://a.com", -300000⟩)]) ∧
    (-300000 : Int) ≠ 0 + 30 * 60 * 1000 :=
  ⟨by rfl, by rfl, by decide⟩

/-- C2 as amended: on every successful creation the stored record expires at
the creation instant plus `validityMinutes validity` times 60000 ms, where the
parsed validity falls back to 30 exactly when the parse fails or the parsed
value is zero (falsy); a nonzero parsed value, negative values included, is
used as parsed, and no error is raised for bad validity. -/
theorem stored_expiry_formula (rand : Nat → Fin 64) (fuel : Nat) (m : Registry)
    (origin : String) (now : Int) (url customCode validity : String)
    (u : String) (m2 : Registry)
    (h : handleSubmit rand fuel m origin now url customCode validity =
      (Except.ok (some u), m2)) :
    (∃ code, lookup m2 code =
      some ⟨url, now + validityMinutes validity * 60 * 1000⟩) ∧
    (parseIntJS validity = none → validityMinutes validity = 30) ∧
    (parseIntJS validity = some 0 → validityMinutes validity = 30) ∧
    (∀ n : Int, parseIntJS validity = some n → n ≠ 0 →
      validityMinutes validity = n) := by
  refine ⟨?_, ?_, ?_, ?_⟩
  · obtain ⟨code, hm⟩ :=
      submit_success_inserts rand fuel m origin now url customCode validity u m2 h
    exact ⟨code, by rw [hm]; exact lookup_insert m code _⟩
  · intro hp; simp [validityMinutes, hp]
  · intro hp; simp [validityMinutes, hp]
  · intro n hp hn; simp [validityMinutes, hp, hn]

/-- Witness for C2 as amended, at a successful creation with validity 7. -/
theorem stored_expiry_formula_witness :
    (∃ code, lookup [("abcd", ⟨"https://a.com", 420000⟩)] code =
      some ⟨"https://a.com", 0 + validityMinutes "7" * 60 * 1000⟩) ∧
    (parseIntJS "7" = none → validityMinutes "7" = 30) ∧
    (parseIntJS "7" = some 0 → validityMinutes "7" = 30) ∧
    (∀ n : Int, parseIntJS "7" = some n → n ≠ 0 → validityMinutes "7" = n) :=
  stored_expiry_formula randZero 1 [] "o" 0 "https://a.com" "abcd" "7"
    "o/abcd" [("abcd", ⟨"https://a.com", 420000⟩)] (by rfl)

/-- C3: for every `originalUrl` not matching `^https?://.+` the submission
fails with `InvalidUrl` and the registry is returned unchanged, whatever the
other arguments are. -/
theorem invalid_url_rejected (rand : Nat → Fin 64) (fuel : Nat) (m : Registry)
    (origin : String) (now : Int) (url customCode validity : String)
    (h : matchesUrlPattern url = false) :
    handleSubmit rand fuel m origin now url customCode validity =
      (Except.error ShortenError.invalidUrl, m) := by
  unfold handleSubmit
  rw [if_pos (by simp [h])]

/-- Witness for C3 at the spec scenario input `ftp://bad`. -/
theorem invalid_url_rejected_witness :
    handleSubmit randZero 1 [] "o" 0 "ftp://bad" "" "30" =
      (Except.error ShortenError.invalidUrl, []) :=
  invalid_url_rejected randZero 1 [] "o" 0 "ftp://bad" "" "30" (by rfl)

/-- C4, counterexample: the claim states that every syntactically valid custom
code that is not a key of the registry is used verbatim.  The duplicate check
`if (urlMap[customCode])` is a truthy property access that walks the prototype
chain, so the valid code `toString` — absent from the empty registry — still
fails with `DuplicateShortcode`, because `urlMap["toString"]` is the inherited
`Object.prototype.toString` function. -/
theorem prototype_duplicate_counterexample :
    matchesShortcodePattern "toString" = true ∧
    lookup [] "toString" = none ∧
    handleSubmit randZero 1 [] "o" 0 "https://a.com" "toString" "1" =
      (Except.error ShortenError.duplicateShortcode, []) :=
  ⟨by decide, by rfl, by rfl⟩

/-- C4 as amended: for a syntactically valid custom code, submission with a
valid URL fails with `DuplicateShortcode` and leaves the registry unchanged
when the code is already a key of the registry, and likewise when the code is
an inherited `Object.prototype` property name (the duplicate check is a truthy
property access); when the access is falsy — the code is neither an own key
nor an inherited prototype name — the code is used verbatim: it is the key of
the inserted record and the suffix of the returned short URL. -/
theorem custom_code_duplicate_or_verbatim (rand : Nat → Fin 64) (fuel : Nat)
    (m : Registry) (origin : String) (now : Int) (url c validity : String)
    (hurl : matchesUrlPattern url = true)
    (hc : matchesShortcodePattern c = true) :
    ((lookup m c).isSome = true →
      handleSubmit rand fuel m origin now url c validity =
        (Except.error ShortenError.duplicateShortcode, m)) ∧
    (objectPrototypeKeys.contains c = true →
      handleSubmit rand fuel m origin now url c validity =
        (Except.error ShortenError.duplicateShortcode, m)) ∧
    (propTruthy m c = false →
      handleSubmit rand fuel m origin now url c validity =
        (Except.ok (some (origin ++ "/" ++ c)),
          insert m c ⟨url, now + validityMinutes validity * 60 * 1000⟩)) := by
  have htr := shortcode_pattern_truthy c hc
  refine ⟨?_, ?_, ?_⟩
  · intro hdup
    unfold handleSubmit handleShorten createShortCode
    rw [if_neg (by simp [hurl]), if_neg (by simp [htr, hc]), if_pos (by simp [htr]),
      if_pos (show propTruthy m c = true by
        simp only [propTruthy, hdup, Bool.true_or])]
  · intro hdup
    unfold handleSubmit handleShorten createShortCode
    rw [if_neg (by simp [hurl]), if_neg (by simp [htr, hc]), if_pos (by simp [htr]),
      if_pos (show propTruthy m c = true by
        simp only [propTruthy, hdup, Bool.or_true])]
  · intro hfresh
    unfold handleSubmit handleShorten createShortCode
    rw [if_neg (by simp [hurl]), if_neg (by simp [htr, hc]), if_pos (by simp [htr]),
      if_neg (by simp [hfresh])]

/-- Witness for C4 as amended, at the code `mycode` against a registry already
holding `mycode`. -/
theorem custom_code_duplicate_or_verbatim_witness :
    (((lookup [("mycode", ⟨"https://b.com", 9⟩)] "mycode").isSome = true →
      handleSubmit randZero 1 [("mycode", ⟨"https://b.com", 9⟩)] "o" 0
          "https://a.com" "mycode" "1" =
        (Except.error ShortenError.duplicateShortcode,
          [("mycode", ⟨"https://b.com", 9⟩)])) ∧
    (objectPrototypeKeys.contains "mycode" = true →
      handleSubmit randZero 1 [("mycode", ⟨"https://b.com", 9⟩)] "o" 0
          "https://a.com" "mycode" "1" =
        (Except.error ShortenError.duplicateShortcode,
          [("mycode", ⟨"https://b.com", 9⟩)])) ∧
    (propTruthy [("mycode", ⟨"https://b.com", 9⟩)] "mycode" = false →
      handleSubmit randZero 1 [("mycode", ⟨"https://b.com", 9⟩)] "o" 0
          "https://a.com" "mycode" "1" =
        (Except.ok (some ("o" ++ "/" ++ "mycode")),
          insert [("mycode", ⟨"https://b.com", 9⟩)] "mycode"
            ⟨"https://a.com", 0 + validityMinutes "1" * 60 * 1000⟩))) :=
  custom_code_duplicate_or_verbatim randZero 1 [("mycode", ⟨"https://b.com", 9⟩)]
    "o" 0 "https://a.com" "mycode" "1" (by rfl) (by rfl)

/-- C5: on every call to shorten without a custom code (the empty string is
the absent custom code), a successful insertion uses a shortcode of exactly 6
characters that is not a key of the registry the generation loop sampled
against, and that shortcode is the suffix of the returned short URL. -/
theorem generated_code_six_fresh (rand : Nat → Fin 64) (fuel : Nat)
    (m : Registry) (origin : String) (now : Int) (url : String) (vmin : Int)
    (u : String) (m2 : Registry)
    (h : handleShorten rand fuel m origin now url "" vmin =
      (Except.ok (some u), m2)) :
    ∃ c, u = origin ++ "/" ++ c ∧ c.length = 6 ∧ lookup m c = none ∧
      m2 = insert m c ⟨url, now + vmin * 60 * 1000⟩ :=
  handleShorten_gen_spec rand fuel m origin now url vmin u m2 h

/-- Witness for C5: the all-zero random stream generates `uuuuuu` against the
empty registry. -/
theorem generated_code_six_fresh_witness :
    ∃ c, "o/uuuuuu" = "o" ++ "/" ++ c ∧ c.length = 6 ∧ lookup [] c = none ∧
      [("uuuuuu", (⟨"https://a.com", 1800000⟩ : Record))] =
        insert [] c ⟨"https://a.com", (0 : Int) + 30 * 60 * 1000⟩ :=
  generated_code_six_fresh randZero 1 [] "o" 0 "https://a.com" 30 "o/uuuuuu"
    [("uuuuuu", ⟨"https://a.com", 1800000⟩)] (by rfl)

/-- C6: the spec scenario.  Creating `mycode` for `https://a.com` with
validity 1 at instant 0 stores expiry 60000; resolving `mycode` at instant
120000 yields `Expired` and removes the record; resolving it again against the
resulting empty registry yields `NotFound`. -/
theorem expiry_removal_scenario :
    handleSubmit randZero 1 [] "o" 0 "https://a.com" "mycode" "1" =
      (Except.ok (some "o/mycode"), [("mycode", ⟨"https://a.com", 60000⟩)]) ∧
    redirectorEffect [("mycode", ⟨"https://a.com", 60000⟩)] [] "mycode" 120000 =
      ⟨ResolveState.expired, [], []⟩ ∧
    redirectorEffect [] [] "mycode" 120000 = ⟨ResolveState.notFound, [], []⟩ :=
  ⟨by rfl, by rfl, by rfl⟩

/-- C7: `removeExpired` is idempotent, and on an absent code it is a no-op
that returns the registry unchanged (it is a total function, so it cannot
fail). -/
theorem removeExpired_idempotent_noop (m : Registry) (k : String) :
    removeExpired (removeExpired m k) k = removeExpired m k ∧
    (lookup m k = none → removeExpired m k = m) :=
  ⟨removeExpired_idem m k, removeExpired_absent m k⟩

/-- Witness for C7 on a one-entry registry and an absent code. -/
theorem removeExpired_idempotent_noop_witness :
    (removeExpired (removeExpired [("abcd", ⟨"https://a.com", 5⟩)] "zzzz") "zzzz" =
      removeExpired [("abcd", ⟨"https://a.com", 5⟩)] "zzzz") ∧
    removeExpired [("abcd", ⟨"https://a.com", 5⟩)] "zzzz" =
      [("abcd", (⟨"https://a.com", 5⟩ : Record))] :=
  ⟨(removeExpired_idempotent_noop [("abcd", ⟨"https://a.com", 5⟩)] "zzzz").1,
    (removeExpired_idempotent_noop [("abcd", ⟨"https://a.com", 5⟩)] "zzzz").2
      (by rfl)⟩

/-- C8, counterexample: the claim states that a pending redirect timer armed
for a prior code is canceled when the code changes.  The source effect returns
no cleanup function, so after arming a timer for `aaaa` and then running the
effect for `bbbb`, the timer armed for `aaaa` is still pending. -/
theorem stale_timer_counterexample :
    (redirectorEffect
        [("aaaa", ⟨"https://a.com", 100⟩), ("bbbb", ⟨"https://b.com", 100⟩)]
        ["aaaa"] "bbbb" 0).timers = ["aaaa", "bbbb"] ∧
    "aaaa" ∈ (redirectorEffect
        [("aaaa", ⟨"https://a.com", 100⟩), ("bbbb", ⟨"https://b.com", 100⟩)]
        ["aaaa"] "bbbb" 0).timers :=
  ⟨by rfl, by decide⟩

/-- C8 as amended: when the code changes the effect re-runs, and resolution is
re-evaluated for the new code exactly as it would be from scratch, but every
timer pending from a prior code stays pending — the effect never cancels a
timer, so a timer from a prior code can still fire after the change. -/
theorem rearm_without_cancel (m : Registry) (timers : List String) (c : String)
    (now : Int) :
    (∀ t ∈ timers, t ∈ (redirectorEffect m timers c now).timers) ∧
    (redirectorEffect m timers c now).state =
      (redirectorEffect m [] c now).state := by
  cases hl : lookup m c with
  | none =>
    simp only [redirectorEffect, hl]
    exact ⟨fun t ht => ht, by simp⟩
  | some r =>
    simp only [redirectorEffect, hl]
    by_cases hlt : now > r.expiry
    · rw [if_pos hlt, if_pos hlt]
      exact ⟨fun t ht => ht, rfl⟩
    · rw [if_neg hlt, if_neg hlt]
      exact ⟨fun t ht => List.mem_append_left _ ht, rfl⟩

/-- Witness for C8 as amended: a pending timer for `aaaa` survives an effect
run for the unknown code `cccc`. -/
theorem rearm_without_cancel_witness :
    "aaaa" ∈ (redirectorEffect [("aaaa", ⟨"https://a.com", 100⟩)]
      ["aaaa"] "cccc" 0).timers ∧
    (redirectorEffect [("aaaa", ⟨"https://a.com", 100⟩)] ["aaaa"] "cccc" 0).state =
      (redirectorEffect [("aaaa", ⟨"https://a.com", 100⟩)] [] "cccc" 0).state :=
  ⟨(rearm_without_cancel [("aaaa", ⟨"https://a.com", 100⟩)] ["aaaa"] "cccc" 0).1
      "aaaa" (by decide),
    (rearm_without_cancel [("aaaa", ⟨"https://a.com", 100⟩)] ["aaaa"] "cccc" 0).2⟩

/-- C9: for every given (nonempty, hence truthy) custom code that does not
match `^[a-zA-Z0-9_-]{4,20}$`, submission with a valid URL fails with
`InvalidShortcode` and the registry is returned unchanged. -/
theorem invalid_custom_code_rejected (rand : Nat → Fin 64) (fuel : Nat)
    (m : Registry) (origin : String) (now : Int) (url c validity : String)
    (hurl : matchesUrlPattern url = true)
    (hgiven : strTruthy c = true)
    (hpat : matchesShortcodePattern c = false) :
    handleSubmit rand fuel m origin now url c validity =
      (Except.error ShortenError.invalidShortcode, m) := by
  unfold handleSubmit
  rw [if_neg (by simp [hurl]), if_pos (by simp [hgiven, hpat])]

/-- Witness for C9 at the two-character custom code `ab`. -/
theorem invalid_custom_code_rejected_witness :
    handleSubmit randZero 1 [] "o" 0 "https://a.com" "ab" "30" =
      (Except.error ShortenError.invalidShortcode, []) :=
  invalid_custom_code_rejected randZero 1 [] "o" 0 "https://a.com" "ab" "30"
    (by rfl) (by rfl) (by rfl)

/-- C10: an empty custom code is falsy, so it is treated exactly as if no
custom code were given: the submission equals the no-custom-code shorten call,
it never fails with `InvalidShortcode` even though the empty string does not
match the shortcode pattern, and a successful insertion uses a fresh random
6-character code. -/
theorem empty_custom_code_generates (rand : Nat → Fin 64) (fuel : Nat)
    (m : Registry) (origin : String) (now : Int) (url validity : String)
    (hurl : matchesUrlPattern url = true) :
    matchesShortcodePattern "" = false ∧
    handleSubmit rand fuel m origin now url "" validity =
      handleShorten rand fuel m origin now url "" (validityMinutes validity) ∧
    (handleSubmit rand fuel m origin now url "" validity).1 ≠
      Except.error ShortenError.invalidShortcode ∧
    (∀ u m2, handleSubmit rand fuel m origin now url "" validity =
        (Except.ok (some u), m2) →
      ∃ c, u = origin ++ "/" ++ c ∧ c.length = 6 ∧ lookup m c = none) := by
  have hsub : handleSubmit rand fuel m origin now url "" validity =
      handleShorten rand fuel m origin now url "" (validityMinutes validity) := by
    unfold handleSubmit
    rw [if_neg (by simp [hurl]), if_neg (by simp [strTruthy])]
  refine ⟨by decide, hsub, ?_, ?_⟩
  · rw [hsub]
    unfold handleShorten createShortCode
    rw [if_neg (by simp [strTruthy])]
    cases hg : genLoop m rand fuel 0 <;> simp
  · intro u m2 h
    rw [hsub] at h
    obtain ⟨c, hu, hlen, hfresh, _⟩ := handleShorten_gen_spec rand fuel m origin
      now url (validityMinutes validity) u m2 h
    exact ⟨c, hu, hlen, hfresh⟩

/-- Witness for C10 against the empty registry. -/
theorem empty_custom_code_generates_witness :
    matchesShortcodePattern "" = false ∧
    handleSubmit randZero 1 [] "o" 0 "https://a.com" "" "30" =
      handleShorten randZero 1 [] "o" 0 "https://a.com" ""
        (validityMinutes "30") ∧
    (handleSubmit randZero 1 [] "o" 0 "https://a.com" "" "30").1 ≠
      Except.error ShortenError.invalidShortcode ∧
    (∀ u m2, handleSubmit randZero 1 [] "o" 0 "https://a.com" "" "30" =
        (Except.ok (some u), m2) →
      ∃ c, u = "o" ++ "/" ++ c ∧ c.length = 6 ∧ lookup [] c = none) :=
  empty_custom_code_generates randZero 1 [] "o" 0 "https://a.com" "30" (by rfl)

end UrlShortener
